import Mathlib

/-!
Verification of the service-worker cache manager (`flutter_service_worker.js`-style
worker) of this repository.  The worker maintains three named cache stores
(`flutter-app-cache` = Content Store, `flutter-temp-cache` = Temporary Store,
`flutter-app-manifest` = Manifest Store) and reconciles them on activation
against the build-time `RESOURCES` manifest.

The embedding models:
  * caches as association lists from request URL to response;
  * the cache storage (`caches` global) as three optional caches (absent store
    = `none`, as produced by `caches.delete`; `caches.open` creates `some []`);
  * the activate handler as a computation in a small state-plus-exception
    monad `ActM`, where every `await`ed cache operation is a `step` that can be
    made to throw by a fault budget — this makes "an exception is thrown at
    any point inside the reconciliation" a real quantification;
  * the fetch router, the online-first strategy and `downloadOffline` as pure
    functions of the cache contents and the (possibly failing) network result.
-/

/-- A network/cache response.  Only the `ok` flag (HTTP status ok) and an
identity tag for the body are relevant to the worker's logic; `clone()` of a
response is value-identical to it. -/
structure Response where
  ok : Bool
  body : Nat
deriving DecidableEq

/-- A cache object: association list from request URL to stored response.
Request identity for a GET-only worker is the URL. -/
abbrev Cache := List (String × Response)

/-- A resource manifest: mapping from logical key to content fingerprint. -/
abbrev Manifest := List (String × String)

/-- The Manifest Store's cache maps its fixed label to a (deserialized)
manifest; `put('manifest', new Response(JSON.stringify(m)))` followed by
`match('manifest')` then `.json()` round-trips to `m`. -/
abbrev ManifestCache := List (String × Manifest)

/-- The browser's cache storage: the three named stores used by the worker.
`none` means the named cache does not exist (`caches.delete` was the last
operation on it). -/
structure CacheStorage where
  content : Option Cache
  temp : Option Cache
  manifestStore : Option ManifestCache
deriving DecidableEq

/-- Association-list lookup (JS `obj[key]` / `cache.match(request)`):
first binding for the key, if any. -/
def assocFind? {β : Type} (k : String) : List (String × β) → Option β
  | [] => none
  | e :: rest => if e.1 = k then some e.2 else assocFind? k rest

/-- Association-list delete (`cache.delete(request)`): removes every binding
for the key. -/
def assocDelete {β : Type} (k : String) : List (String × β) → List (String × β)
  | [] => []
  | e :: rest => if e.1 = k then assocDelete k rest else e :: assocDelete k rest

/-- Association-list put (`cache.put(request, response)`): overwrites any
existing binding for the key. -/
def assocPut {β : Type} (k : String) (v : β) (m : List (String × β)) :
    List (String × β) :=
  assocDelete k m ++ [(k, v)]

/-- JS falsiness of a string-valued object lookup: `!obj[key]` is `true`
exactly when the key is absent (`undefined`) or the value is `""`. -/
def jsFalsyStr : Option String → Bool
  | none => true
  | some s => s = ""

/-- JS falsiness of a boolean-valued object lookup (`!currentContent[key]`). -/
def jsFalsyBool : Option Bool → Bool
  | none => true
  | some b => !b

/-- JS `url.substring(n)` (code-unit slicing; the worker's URLs are ASCII). -/
def jsSubstringFrom (s : String) (n : Nat) : String :=
  (s.toList.drop n).asString

/-- `headMatches p l` holds when `p` is an initial segment of `l`
(character-list version of JS `startsWith`). -/
def headMatches : List Char → List Char → Bool
  | [], _ => true
  | _ :: _, [] => false
  | p :: ps, c :: cs => p == c && headMatches ps cs

/-- The logical key computed inside the activate handler and
`downloadOffline`: `request.url.substring(origin.length + 1)`, with the empty
key normalized to the root sentinel `"/"`. -/
def activateKey (origin url : String) : String :=
  let key := jsSubstringFrom url (origin.toList.length + 1)
  if key = "" then "/" else key

/-- Text before the first occurrence of `?v=` in the character list, or `none`
when the marker does not occur (JS `key.indexOf('?v=') != -1` plus
`key.split('?v=')[0]`). -/
def splitBeforeMarker : List Char → Option (List Char)
  | [] => none
  | c :: rest =>
      if headMatches ['?', 'v', '='] (c :: rest) then some []
      else
        match splitBeforeMarker rest with
        | some pre => some (c :: pre)
        | none => none

/-- The fetch handler's versioned-URL normalization: when the key contains
`?v=`, keep only the part before it. -/
def stripVersionQuery (key : String) : String :=
  match splitBeforeMarker key.toList with
  | some pre => pre.asString
  | none => key

/-- The logical key computed by the fetch handler: substring past the origin,
`?v=` stripping, and normalization of the origin root / fragment navigations /
empty key to the root sentinel `"/"`. -/
def fetchKey (origin url : String) : String :=
  let key := jsSubstringFrom url (origin.toList.length + 1)
  let key := stripVersionQuery key
  if url = origin || headMatches (origin ++ "/#").toList url.toList || key = ""
  then "/" else key

/-- The build-time resource manifest baked into the worker (`RESOURCES`). -/
def RESOURCES : Manifest :=
  [("assets/AssetManifest.bin", "c6bde94130829683f66d304eb60ffe4d"),
   ("assets/AssetManifest.bin.json", "c4f51074e4610e595b01c911277bdd8b"),
   ("assets/AssetManifest.json", "e00b480c0a2f965fda07d71c5b3a7437"),
   ("assets/assets/data/genders.json", "d4bf17a856a42f5190002a94adf0d081"),
   ("assets/assets/data/relationships.json", "cb07e80f5f471266827c92818e014ea3"),
   ("assets/assets/data/topic_tastes.json", "a04dcfdea2acd127a6fc3b6480346c58"),
   ("assets/assets/icons/Heart%2520Icon_2.svg", "f728c6b3d75dfab6450f56a2a57633f0"),
   ("assets/assets/icons/loading.gif", "789319244da1e131f51b218dc2abc42b"),
   ("assets/assets/icons/loading5.gif", "17e7bebcaec133cae788ab25558dad7e"),
   ("assets/assets/icons/Star%2520Icon.svg", "1ef6ad3bbe15947a5b4d9bf153101fd3"),
   ("assets/assets/icons/triangle.png", "12f6bedf12f78d13b605c1d299b3a391"),
   ("assets/assets/images/barber_parallax.jpg", "8577356d6d03e89b458e5984e39f7595"),
   ("assets/assets/images/Formas_de_pago_MPC_STORE.jpg", "d06c25c596092084bc30b331aec80bcf"),
   ("assets/assets/images/Madio_mall_advertisement.png", "680fd5c7ccad2c103f55899871bb4bc1"),
   ("assets/assets/images/metodos_de_pago.webp", "78123b6bbd8a9ed619628ba0a8956bbe"),
   ("assets/assets/images/No-Image-Placeholder.png", "8bb577688de585fe04c3b5e45ab4fd5e"),
   ("assets/assets/images/parallax_dulces.jpg", "f80c739a3189208e53c456f40e7d6aab"),
   ("assets/assets/images/percentage_discount.png", "38ffaf782594cabb9ad60e096e663aa5"),
   ("assets/assets/images/stars_background.gif", "058b756db6120dcd9fb61cfafbad4dce"),
   ("assets/assets/logos/Logo.png", "0f50143766a8d793a26bd5db87f382e6"),
   ("assets/assets/logos/Logo1.png", "f33f8df50a7373258a6045d397cee43e"),
   ("assets/assets/logos/Logo_oscuro.jpg", "fa1dead1d00d72527ea911f57a973dd7"),
   ("assets/assets/logos/Logo_pasteleria.png", "d1fbc3d7019ee978c0d16cd369c22b4b"),
   ("assets/FontManifest.json", "dcb1dfeaff398bc417d5442466c58834"),
   ("assets/fonts/MaterialIcons-Regular.otf", "695aa53ae0b169c7c12b8c556d971042"),
   ("assets/NOTICES", "72e544f916e0c563df6b4a013f879c92"),
   ("assets/packages/cupertino_icons/assets/CupertinoIcons.ttf", "e986ebe42ef785b27164c36a9abc7818"),
   ("assets/packages/font_awesome_flutter/lib/fonts/fa-brands-400.ttf", "216b019b42c05e07ff7472b382efae72"),
   ("assets/packages/font_awesome_flutter/lib/fonts/fa-regular-400.ttf", "f3307f62ddff94d2cd8b103daf8d1b0f"),
   ("assets/packages/font_awesome_flutter/lib/fonts/fa-solid-900.ttf", "26e5098e2f7fb4b20a2487787f722878"),
   ("assets/packages/social_media_flutter/fonts/icons.ttf", "7dae615e8df7bf5bf381bf713850ac33"),
   ("assets/shaders/ink_sparkle.frag", "ecc85a2e95f5e9f53123dcaf8cb9b6ce"),
   ("canvaskit/canvaskit.js", "738255d00768497e86aa4ca510cce1e1"),
   ("canvaskit/canvaskit.js.symbols", "74a84c23f5ada42fe063514c587968c6"),
   ("canvaskit/canvaskit.wasm", "9251bb81ae8464c4df3b072f84aa969b"),
   ("canvaskit/chromium/canvaskit.js", "901bb9e28fac643b7da75ecfd3339f3f"),
   ("canvaskit/chromium/canvaskit.js.symbols", "ee7e331f7f5bbf5ec937737542112372"),
   ("canvaskit/chromium/canvaskit.wasm", "399e2344480862e2dfa26f12fa5891d7"),
   ("canvaskit/skwasm.js", "5d4f9263ec93efeb022bb14a3881d240"),
   ("canvaskit/skwasm.js.symbols", "c3c05bd50bdf59da8626bbe446ce65a3"),
   ("canvaskit/skwasm.wasm", "4051bfc27ba29bf420d17aa0c3a98bce"),
   ("canvaskit/skwasm.worker.js", "bfb704a6c714a75da9ef320991e88b03"),
   ("favicon.png", "a2147bf911b5147d5441b6d216bf3b2b"),
   ("flutter.js", "383e55f7f3cce5be08fcf1f3881f585c"),
   ("flutter_bootstrap.js", "f2a60c1f5825f91285dd84aa99293054"),
   ("icons/Icon-192.png", "d221d6ae1e2db704afb970a818399b7e"),
   ("icons/Icon-512.png", "e758359d6ea8360d6aa518280604a75c"),
   ("icons/Icon-maskable-192.png", "d221d6ae1e2db704afb970a818399b7e"),
   ("icons/Icon-maskable-512.png", "e758359d6ea8360d6aa518280604a75c"),
   ("index.html", "d716ff0885d4bf6f14515063d535bb4c"),
   ("/", "d716ff0885d4bf6f14515063d535bb4c"),
   ("main.dart.js", "6dff9de67a25428d0eb586b653cfc874"),
   ("manifest.json", "42236d0105f957e75c6b0c9acc017965"),
   ("version.json", "ef54a4ae329e507823db7566997fe9c3")]

/-- The application-shell files downloaded during install (`CORE`). -/
def CORE : List String :=
  ["main.dart.js", "index.html", "flutter_bootstrap.js",
   "assets/AssetManifest.bin.json", "assets/FontManifest.json"]

/-- State of an activate-handler run: the cache storage plus a fault budget.
`budget = some k` makes the `k`-th subsequent awaited cache operation throw;
`budget = none` injects no fault. -/
structure ActState where
  caches : CacheStorage
  budget : Option Nat
deriving DecidableEq

/-- The activate handler's effect monad: state (cache storage + fault budget)
with exceptions; a result of `none` means an exception escaped to the point
under consideration. -/
def ActM (α : Type) : Type := ActState → Option α × ActState

def ActM.pure {α : Type} (a : α) : ActM α := fun st => (some a, st)

def ActM.bind {α β : Type} (x : ActM α) (f : α → ActM β) : ActM β := fun st =>
  match x st with
  | (none, st') => (none, st')
  | (some a, st') => f a st'

instance : Monad ActM where
  pure := ActM.pure
  bind := ActM.bind

/-- One awaited cache/serialization operation: throws when the fault budget
hits zero, otherwise performs the operation and decrements the budget. -/
def ActM.step {α : Type} (f : CacheStorage → α × CacheStorage) : ActM α := fun st =>
  match st.budget with
  | some 0 => (none, st)
  | some (n + 1) => (some (f st.caches).1, ⟨(f st.caches).2, some n⟩)
  | none => (some (f st.caches).1, ⟨(f st.caches).2, none⟩)

/-- `await caches.open(CACHE_NAME)`: creates the Content Store if absent. -/
def openContent : ActM Unit :=
  ActM.step fun c => ((), { c with content := some (c.content.getD []) })

/-- `await caches.open(TEMP)`. -/
def openTemp : ActM Unit :=
  ActM.step fun c => ((), { c with temp := some (c.temp.getD []) })

/-- `await caches.open(MANIFEST)`. -/
def openManifest : ActM Unit :=
  ActM.step fun c => ((), { c with manifestStore := some (c.manifestStore.getD []) })

/-- `await caches.delete(CACHE_NAME)`. -/
def deleteContentStore : ActM Unit :=
  ActM.step fun c => ((), { c with content := none })

/-- `await caches.delete(TEMP)`. -/
def deleteTempStore : ActM Unit :=
  ActM.step fun c => ((), { c with temp := none })

/-- `await manifestCache.match('manifest')` (with the `.json()` round-trip
folded into the stored value). -/
def manifestMatch : ActM (Option Manifest) :=
  ActM.step fun c => (assocFind? "manifest" (c.manifestStore.getD []), c)

/-- `await manifest.json()`: deserialization of the matched manifest body. -/
def manifestJson (m : Manifest) : ActM Manifest :=
  ActM.step fun c => (m, c)

/-- `await contentCache.keys()`: snapshot of the request URLs. -/
def contentKeys : ActM (List String) :=
  ActM.step fun c => ((c.content.getD []).map (·.1), c)

/-- `await tempCache.keys()`. -/
def tempKeys : ActM (List String) :=
  ActM.step fun c => ((c.temp.getD []).map (·.1), c)

/-- `await tempCache.match(request)`. -/
def tempMatch (url : String) : ActM (Option Response) :=
  ActM.step fun c => (assocFind? url (c.temp.getD []), c)

/-- `await contentCache.put(request, response)`. -/
def contentPut (url : String) (r : Response) : ActM Unit :=
  ActM.step fun c =>
    ((), { c with content := some (assocPut url r (c.content.getD [])) })

/-- `await contentCache.delete(request)`. -/
def contentDelete (url : String) : ActM Unit :=
  ActM.step fun c =>
    ((), { c with content := some (assocDelete url (c.content.getD [])) })

/-- `await manifestCache.put('manifest', new Response(JSON.stringify(resources)))`. -/
def manifestPut (resources : Manifest) : ActM Unit :=
  ActM.step fun c =>
    ((), { c with manifestStore := some (assocPut "manifest" resources (c.manifestStore.getD [])) })

/-- The eviction condition of the manifest-diff branch:
`!RESOURCES[key] || RESOURCES[key] != oldManifest[key]`. -/
def evictCond (resources oldManifest : Manifest) (origin url : String) : Bool :=
  let key := activateKey origin url
  jsFalsyStr (assocFind? key resources) ||
    decide (assocFind? key resources ≠ assocFind? key oldManifest)

/-- The diff loop of the activate handler: iterate over the snapshot of
Content Store request URLs, deleting each stale or retired entry. -/
def evictLoop (resources oldManifest : Manifest) (origin : String) :
    List String → ActM Unit
  | [] => Pure.pure ()
  | url :: rest => do
      if evictCond resources oldManifest origin url then
        contentDelete url
      evictLoop resources oldManifest origin rest

/-- The copy loop of the activate handler: for each Temporary Store request,
match it in the Temporary Store and put the response into the Content Store. -/
def copyLoop : List String → ActM Unit
  | [] => Pure.pure ()
  | url :: rest => do
      let r ← tempMatch url
      match r with
      | some resp => contentPut url resp
      | none => Pure.pure ()
      copyLoop rest

/-- The `try` body of the activate handler (source lines 83–128): open the
three stores, read the persisted manifest, and either do the no-prior-manifest
full reset or the manifest-diff reconciliation; in both branches finish by
copying the Temporary Store in, deleting it, and persisting the new manifest.
(`self.clients.claim()` is not a cache operation and is not awaited.) -/
def activateBody (resources : Manifest) (origin : String) : ActM Unit := do
  openContent
  openTemp
  openManifest
  let manifest ← manifestMatch
  match manifest with
  | none =>
      deleteContentStore
      openContent
      let tks ← tempKeys
      copyLoop tks
      deleteTempStore
      manifestPut resources
  | some m =>
      let oldManifest ← manifestJson m
      let cks ← contentKeys
      evictLoop resources oldManifest origin cks
      let tks ← tempKeys
      copyLoop tks
      deleteTempStore
      manifestPut resources

/-- The `catch` block of the activate handler (source lines 129–135):
unconditionally delete all three stores. -/
def catchReset (c : CacheStorage) : CacheStorage :=
  let c := { c with content := none }
  let c := { c with temp := none }
  { c with manifestStore := none }

/-- The whole activate handler: run the reconciliation body; if an exception
escapes, run the destructive catch block on whatever state the body reached. -/
def activateHandler (resources : Manifest) (origin : String) (s : CacheStorage)
    (budget : Option Nat) : CacheStorage :=
  match activateBody resources origin ⟨s, budget⟩ with
  | (none, st) => catchReset st.caches
  | (some _, st) => st.caches

/-- Pure result of the diff loop on a content cache `cc` whose request-URL
snapshot is `urls`. -/
def evictPure (resources oldManifest : Manifest) (origin : String) :
    List String → Cache → Cache
  | [], cc => cc
  | url :: rest, cc =>
      evictPure resources oldManifest origin rest
        (if evictCond resources oldManifest origin url then assocDelete url cc
         else cc)

/-- Pure result of the copy loop: for each URL of the Temporary Store snapshot
`urls`, look it up in `temp` and put the response into the accumulating
content cache. -/
def copyPure (temp : Cache) : List String → Cache → Cache
  | [], cc => cc
  | url :: rest, cc =>
      copyPure temp rest
        (match assocFind? url temp with
         | some resp => assocPut url resp cc
         | none => cc)

/-- Pure description of a fault-free run of the activate body. -/
def activatePure (resources : Manifest) (origin : String) (s : CacheStorage) :
    CacheStorage :=
  let contentCache := s.content.getD []
  let tempCache := s.temp.getD []
  let manifestCache := s.manifestStore.getD []
  match assocFind? "manifest" manifestCache with
  | none =>
      { content := some (copyPure tempCache (tempCache.map (·.1)) []),
        temp := none,
        manifestStore := some (assocPut "manifest" resources manifestCache) }
  | some oldManifest =>
      { content :=
          some (copyPure tempCache (tempCache.map (·.1))
            (evictPure resources oldManifest origin
              (contentCache.map (·.1)) contentCache)),
        temp := none,
        manifestStore := some (assocPut "manifest" resources manifestCache) }

theorem ActM.bind_apply {α β : Type} (x : ActM α) (f : α → ActM β)
    (st : ActState) :
    (x >>= f) st =
      match x st with
      | (none, st') => (none, st')
      | (some a, st') => f a st' := rfl

theorem ActM.pure_apply {α : Type} (a : α) (st : ActState) :
    (Pure.pure a : ActM α) st = (some a, st) := rfl

theorem ActM.step_none {α : Type} (f : CacheStorage → α × CacheStorage)
    (c : CacheStorage) :
    ActM.step f ⟨c, none⟩ = (some (f c).1, ⟨(f c).2, none⟩) := rfl

theorem copyLoop_noFault (urls : List String) (c : CacheStorage) (cc : Cache)
    (h : c.content = some cc) :
    copyLoop urls ⟨c, none⟩ =
      (some (), ⟨{ c with content := some (copyPure (c.temp.getD []) urls cc) },
        none⟩) := by
  induction urls generalizing c cc with
  | nil =>
      simp only [copyLoop, copyPure, ActM.pure_apply]
      cases c
      simp_all
  | cons url rest ih =>
      simp only [copyLoop, copyPure, ActM.bind_apply, tempMatch, ActM.step_none]
      cases hfind : assocFind? url (c.temp.getD []) with
      | none =>
          simp only [ActM.pure_apply, ActM.bind_apply]
          rw [ih c cc h]
      | some resp =>
          simp only [contentPut, ActM.step_none, ActM.bind_apply]
          rw [ih { c with content := some (assocPut url resp (c.content.getD [])) }
            (assocPut url resp cc) (by simp [h])]


theorem evictLoop_noFault (resources oldManifest : Manifest) (origin : String)
    (urls : List String) (c : CacheStorage) (cc : Cache)
    (h : c.content = some cc) :
    evictLoop resources oldManifest origin urls ⟨c, none⟩ =
      (some (),
        ⟨{ c with content := some (evictPure resources oldManifest origin urls cc) },
          none⟩) := by
  induction urls generalizing c cc with
  | nil =>
      simp only [evictLoop, evictPure, ActM.pure_apply]
      cases c
      simp_all
  | cons url rest ih =>
      simp only [evictLoop, evictPure]
      by_cases hc : evictCond resources oldManifest origin url = true
      · rw [if_pos hc, if_pos hc]
        simp only [ActM.bind_apply, contentDelete, ActM.step_none]
        rw [ih { c with content := some (assocDelete url (c.content.getD [])) }
          (assocDelete url cc) (by simp [h])]
      · rw [if_neg hc, if_neg hc]
        simp only [ActM.bind_apply, ActM.pure_apply]
        rw [ih c cc h]

theorem activateBody_noFault (resources : Manifest) (origin : String)
    (c : CacheStorage) :
    activateBody resources origin ⟨c, none⟩ =
      (some (), ⟨activatePure resources origin c, none⟩) := by
  simp only [activateBody, activatePure, ActM.bind_apply, openContent, openTemp,
    openManifest, manifestMatch, manifestJson, contentKeys, tempKeys,
    deleteContentStore, deleteTempStore, manifestPut, ActM.step_none,
    Option.getD_some]
  cases hman : assocFind? "manifest" (c.manifestStore.getD []) with
  | none =>
      simp only [ActM.bind_apply, ActM.step_none, Option.getD_some]
      rw [copyLoop_noFault _ _ ([] : Cache) (by simp)]
      simp only [ActM.bind_apply, ActM.step_none, Option.getD_some]
  | some oldManifest =>
      simp only [ActM.bind_apply, ActM.step_none, Option.getD_some]
      rw [evictLoop_noFault _ _ _ _ _ (c.content.getD []) (by simp)]
      simp only [ActM.bind_apply, ActM.step_none, Option.getD_some]
      rw [copyLoop_noFault _ _
        (evictPure resources oldManifest origin
          ((c.content.getD []).map (·.1)) (c.content.getD [])) (by simp)]
      simp only [ActM.bind_apply, ActM.step_none, Option.getD_some]

/-- A fault-free run of the activate handler is described by `activatePure`. -/
theorem activateHandler_noFault (resources : Manifest) (origin : String)
    (s : CacheStorage) :
    activateHandler resources origin s none = activatePure resources origin s := by
  simp only [activateHandler, activateBody_noFault]

theorem assocFind?_append {β : Type} (k : String) (l l' : List (String × β)) :
    assocFind? k (l ++ l') =
      match assocFind? k l with
      | some v => some v
      | none => assocFind? k l' := by
  induction l with
  | nil => simp [assocFind?]
  | cons e rest ih =>
      by_cases he : e.1 = k
      · simp [assocFind?, he]
      · simp [assocFind?, he, ih]

theorem assocFind?_delete {β : Type} (k k' : String) (m : List (String × β)) :
    assocFind? k (assocDelete k' m) =
      if k' = k then none else assocFind? k m := by
  induction m with
  | nil => simp [assocFind?, assocDelete]
  | cons e rest ih =>
      by_cases he : e.1 = k'
      · rw [assocDelete, if_pos he, ih]
        by_cases hk : k' = k
        · rw [if_pos hk, if_pos hk]
        · rw [if_neg hk, if_neg hk, assocFind?,
            if_neg (fun h => hk (he.symm.trans h))]
      · rw [assocDelete, if_neg he, assocFind?]
        by_cases hek : e.1 = k
        · rw [if_pos hek, if_neg (fun h : k' = k => he (hek.trans h.symm)),
            assocFind?, if_pos hek]
        · rw [if_neg hek, ih]
          by_cases hk : k' = k
          · rw [if_pos hk, if_pos hk]
          · rw [if_neg hk, if_neg hk, assocFind?, if_neg hek]

theorem assocFind?_put {β : Type} (k k' : String) (v : β)
    (m : List (String × β)) :
    assocFind? k (assocPut k' v m) =
      if k' = k then some v else assocFind? k m := by
  unfold assocPut
  rw [assocFind?_append, assocFind?_delete]
  by_cases hk : k' = k
  · rw [if_pos hk, if_pos hk]
    simp [assocFind?, hk]
  · rw [if_neg hk, if_neg hk]
    cases h : assocFind? k m with
    | none => simp [h, assocFind?, hk]
    | some w => simp [h]

theorem mem_keys_delete {β : Type} (x k : String) (m : List (String × β)) :
    x ∈ (assocDelete k m).map (·.1) ↔ x ∈ m.map (·.1) ∧ x ≠ k := by
  induction m with
  | nil => simp [assocDelete]
  | cons e rest ih =>
      by_cases he : e.1 = k
      · simp only [assocDelete, if_pos he, ih, List.map_cons, List.mem_cons]
        constructor
        · rintro ⟨hm, hx⟩
          exact ⟨Or.inr hm, hx⟩
        · rintro ⟨hm | hm, hx⟩
          · exact absurd (hm ▸ he) hx
          · exact ⟨hm, hx⟩
      · simp only [assocDelete, if_neg he, List.map_cons, List.mem_cons, ih]
        constructor
        · rintro (hx | ⟨hm, hx⟩)
          · exact ⟨Or.inl hx, fun hxk => he (hx ▸ hxk)⟩
          · exact ⟨Or.inr hm, hx⟩
        · rintro ⟨hm | hm, hx⟩
          · exact Or.inl hm
          · exact Or.inr ⟨hm, hx⟩

theorem mem_keys_put {β : Type} (x k : String) (v : β) (m : List (String × β)) :
    x ∈ (assocPut k v m).map (·.1) ↔ x = k ∨ x ∈ m.map (·.1) := by
  unfold assocPut
  simp only [List.map_append, List.mem_append, mem_keys_delete, List.map_cons,
    List.map_nil, List.mem_singleton]
  by_cases hx : x = k
  · simp [hx]
  · simp [hx]

theorem assocFind?_isSome_iff {β : Type} (x : String) (m : List (String × β)) :
    (assocFind? x m).isSome = true ↔ x ∈ m.map (·.1) := by
  induction m with
  | nil => simp [assocFind?]
  | cons e rest ih =>
      by_cases he : e.1 = x
      · simp [assocFind?, he]
      · simp only [assocFind?, if_neg he, List.map_cons, List.mem_cons, ih]
        constructor
        · exact fun h => Or.inr h
        · rintro (h | h)
          · exact absurd h.symm he
          · exact h

theorem mem_keys_copyPure (temp : Cache) (urls : List String) (cc : Cache)
    (x : String) (h : x ∈ (copyPure temp urls cc).map (·.1)) :
    x ∈ urls ∨ x ∈ cc.map (·.1) := by
  induction urls generalizing cc with
  | nil => exact Or.inr h
  | cons url rest ih =>
      rw [copyPure] at h
      cases hfind : assocFind? url temp with
      | none =>
          rw [hfind] at h
          rcases ih _ h with hu | hcc
          · exact Or.inl (List.mem_cons_of_mem _ hu)
          · exact Or.inr hcc
      | some resp =>
          rw [hfind] at h
          rcases ih _ h with hu | hcc
          · exact Or.inl (List.mem_cons_of_mem _ hu)
          · rcases (mem_keys_put x url resp cc).mp hcc with hx | hx
            · exact Or.inl (hx ▸ List.mem_cons_self _ _)
            · exact Or.inr hx

theorem mem_keys_copyPure_of_mem (temp : Cache) (urls : List String)
    (cc : Cache) (x : String) (h : x ∈ cc.map (·.1)) :
    x ∈ (copyPure temp urls cc).map (·.1) := by
  induction urls generalizing cc with
  | nil => exact h
  | cons url rest ih =>
      rw [copyPure]
      cases hfind : assocFind? url temp with
      | none => exact ih _ h
      | some resp => exact ih _ ((mem_keys_put x url resp cc).mpr (Or.inr h))

theorem mem_keys_copyPure_of_urls (temp : Cache) (urls : List String)
    (cc : Cache) (x : String) (hx : x ∈ urls)
    (hfind : (assocFind? x temp).isSome = true) :
    x ∈ (copyPure temp urls cc).map (·.1) := by
  induction urls generalizing cc with
  | nil => cases hx
  | cons url rest ih =>
      rw [copyPure]
      by_cases hxu : x = url
      · subst hxu
        cases hf : assocFind? x temp with
        | none => rw [hf] at hfind; cases hfind
        | some resp =>
            exact mem_keys_copyPure_of_mem _ _ _ _
              ((mem_keys_put x x resp cc).mpr (Or.inl rfl))
      · rcases List.mem_cons.mp hx with h | h
        · exact absurd h hxu
        · cases hf : assocFind? url temp with
          | none => exact ih _ h
          | some resp => exact ih _ h

theorem mem_keys_evictPure (resources oldManifest : Manifest) (origin : String)
    (urls : List String) (cc : Cache) (x : String)
    (h : x ∈ (evictPure resources oldManifest origin urls cc).map (·.1)) :
    x ∈ cc.map (·.1) := by
  induction urls generalizing cc with
  | nil => exact h
  | cons url rest ih =>
      rw [evictPure] at h
      by_cases hc : evictCond resources oldManifest origin url = true
      · rw [if_pos hc] at h
        exact ((mem_keys_delete x url cc).mp (ih _ h)).1
      · rw [if_neg hc] at h
        exact ih _ h

theorem not_mem_keys_evictPure (resources oldManifest : Manifest)
    (origin : String) (urls : List String) (cc : Cache) (x : String)
    (hcond : evictCond resources oldManifest origin x = true) (hx : x ∈ urls) :
    x ∉ (evictPure resources oldManifest origin urls cc).map (·.1) := by
  induction urls generalizing cc with
  | nil => cases hx
  | cons url rest ih =>
      rw [evictPure]
      by_cases hxr : x ∈ rest
      · exact ih _ hxr
      · have hxu : x = url := by
          rcases List.mem_cons.mp hx with h | h
          · exact h
          · exact absurd h hxr
        subst hxu
        rw [if_pos hcond]
        intro hmem
        exact ((mem_keys_delete x x cc).mp
          (mem_keys_evictPure _ _ _ _ _ _ hmem)).2 rfl

theorem evictPure_id (resources oldManifest : Manifest) (origin : String)
    (urls : List String) (cc : Cache)
    (h : ∀ u ∈ urls, evictCond resources oldManifest origin u = false) :
    evictPure resources oldManifest origin urls cc = cc := by
  induction urls generalizing cc with
  | nil => rfl
  | cons url rest ih =>
      rw [evictPure, if_neg (by simp [h url (List.mem_cons_self _ _)])]
      exact ih _ (fun u hu => h u (List.mem_cons_of_mem _ hu))

theorem jsFalsyStr_false_isSome (o : Option String) (h : jsFalsyStr o = false) :
    o.isSome = true := by
  cases o with
  | none => cases h
  | some s => rfl

theorem evictCond_false_isSome (resources oldManifest : Manifest)
    (origin url : String)
    (h : evictCond resources oldManifest origin url = false) :
    (assocFind? (activateKey origin url) resources).isSome = true := by
  unfold evictCond at h
  rw [Bool.or_eq_false_iff] at h
  exact jsFalsyStr_false_isSome _ h.1

/-- **C1** (fingerprint invariant): for every request URL present in the
Content Store after a fault-free run of the Activate handler — via either the
no-prior-manifest branch or the manifest-diff branch — the new Resource
Manifest contains an entry for its logical key.  The Temporary Store
hypothesis reflects the install contract: the staged shell files are manifest
resources. -/
theorem activate_fingerprint_invariant (resources : Manifest) (origin : String)
    (s : CacheStorage)
    (htemp : ∀ url ∈ (s.temp.getD []).map (·.1),
      (assocFind? (activateKey origin url) resources).isSome = true) :
    ∀ url ∈ ((activateHandler resources origin s none).content.getD []).map (·.1),
      (assocFind? (activateKey origin url) resources).isSome = true := by
  intro url hmem
  rw [activateHandler_noFault] at hmem
  simp only [activatePure] at hmem
  cases hman : assocFind? "manifest" (s.manifestStore.getD []) with
  | none =>
      rw [hman] at hmem
      simp only [Option.getD_some] at hmem
      rcases mem_keys_copyPure _ _ _ _ hmem with hu | hcc
      · exact htemp url hu
      · simp at hcc
  | some oldManifest =>
      rw [hman] at hmem
      simp only [Option.getD_some] at hmem
      rcases mem_keys_copyPure _ _ _ _ hmem with hu | hcc
      · exact htemp url hu
      · have hmemc : url ∈ ((s.content.getD []).map (·.1)) :=
          mem_keys_evictPure _ _ _ _ _ _ hcc
        by_cases hcond : evictCond resources oldManifest origin url = true
        · exact absurd hcc
            (not_mem_keys_evictPure _ _ _ _ _ _ hcond hmemc)
        · simp only [Bool.not_eq_true] at hcond
          exact evictCond_false_isSome _ _ _ _ hcond

theorem activate_fingerprint_invariant_witness :
    (assocFind? (activateKey "o" "o/A") [("A", "h1")]).isSome = true :=
  activate_fingerprint_invariant [("A", "h1")] "o"
    ⟨none, some [("o/A", ⟨true, 1⟩)], none⟩ (by decide) "o/A" (by decide)

/-- **C2** (failure reset): whenever an exception is thrown at any awaited
point inside the Activate reconciliation (fault budget `some k` exhausts at
the `k`-th cache operation), the handler's catch block leaves all three named
stores absent. -/
theorem activate_failure_resets_all_stores (resources : Manifest)
    (origin : String) (s : CacheStorage) (k : Nat)
    (hthrow : (activateBody resources origin ⟨s, some k⟩).1 = none) :
    (activateHandler resources origin s (some k)).content = none ∧
    (activateHandler resources origin s (some k)).temp = none ∧
    (activateHandler resources origin s (some k)).manifestStore = none := by
  have hbody : activateBody resources origin ⟨s, some k⟩ =
      (none, (activateBody resources origin ⟨s, some k⟩).2) := by
    rcases hb : activateBody resources origin ⟨s, some k⟩ with ⟨fst, snd⟩
    rw [hb] at hthrow
    simp only at hthrow
    subst hthrow
    rfl
  unfold activateHandler
  rw [hbody]
  exact ⟨by rfl, by rfl, by rfl⟩

theorem activate_failure_resets_witness :
    (activateBody [] "o" ⟨⟨none, none, none⟩, some 0⟩).1 = none ∧
    ((activateHandler [] "o" ⟨none, none, none⟩ (some 0)).content = none ∧
     (activateHandler [] "o" ⟨none, none, none⟩ (some 0)).temp = none ∧
     (activateHandler [] "o" ⟨none, none, none⟩ (some 0)).manifestStore = none) :=
  ⟨by decide,
   activate_failure_resets_all_stores [] "o" ⟨none, none, none⟩ 0 (by decide)⟩

/-- **C3** (first-install full copy): with no prior manifest entry, a
fault-free Activate leaves the Content Store holding exactly the Temporary
Store's requests (pre-existing Content Store contents are discarded), deletes
the Temporary Store, and persists the new manifest. -/
theorem activate_no_manifest_full_copy (resources : Manifest) (origin : String)
    (s : CacheStorage)
    (hman : assocFind? "manifest" (s.manifestStore.getD []) = none) :
    (∀ url,
      url ∈ ((activateHandler resources origin s none).content.getD []).map (·.1) ↔
        url ∈ (s.temp.getD []).map (·.1)) ∧
    (activateHandler resources origin s none).temp = none ∧
    assocFind? "manifest"
      ((activateHandler resources origin s none).manifestStore.getD []) =
      some resources := by
  rw [activateHandler_noFault]
  simp only [activatePure, hman]
  refine ⟨?_, trivial, ?_⟩
  · intro url
    constructor
    · intro h
      simp only [Option.getD_some] at h
      rcases mem_keys_copyPure _ _ _ _ h with hu | hcc
      · exact hu
      · simp at hcc
    · intro h
      simp only [Option.getD_some]
      exact mem_keys_copyPure_of_urls _ _ _ _ h
        ((assocFind?_isSome_iff _ _).mpr h)
  · simp [Option.getD_some, assocFind?_put]

def storageC3 : CacheStorage :=
  { content := some [("o/Z", ⟨true, 9⟩)],
    temp := some [("o/X", ⟨true, 1⟩), ("o/Y", ⟨true, 2⟩)],
    manifestStore := none }

theorem activate_no_manifest_full_copy_witness :
    (("o/X" ∈ ((activateHandler [("X", "h1")] "o" storageC3 none).content.getD []).map (·.1)) ↔
      ("o/X" ∈ (storageC3.temp.getD []).map (·.1))) ∧
    (activateHandler [("X", "h1")] "o" storageC3 none).temp = none ∧
    assocFind? "manifest"
      ((activateHandler [("X", "h1")] "o" storageC3 none).manifestStore.getD []) =
      some [("X", "h1")] := by
  have h := activate_no_manifest_full_copy [("X", "h1")] "o" storageC3 (by decide)
  exact ⟨h.1 "o/X", h.2.1, h.2.2⟩

def oldManifestC4 : Manifest := [("A", "h1"), ("B", "h2")]

def resourcesC4 : Manifest := [("A", "h1"), ("B", "h3"), ("C", "h4")]

def storageC4 : CacheStorage :=
  { content := some [("o/A", ⟨true, 1⟩), ("o/B", ⟨true, 2⟩)],
    temp := some [("o/C", ⟨true, 3⟩)],
    manifestStore := some [("manifest", oldManifestC4)] }

/-- **C4** (retention): with old manifest `{A: h1, B: h2}`, new manifest
`{A: h1, B: h3, C: h4}`, Content Store `{A, B}` and Temporary Store `{C}`,
Activate yields Content Store exactly `{A (retained unchanged), C (copied
from temp)}`; `B` is deleted because its fingerprint changed. -/
theorem activate_retention_scenario :
    activateHandler resourcesC4 "o" storageC4 none =
      { content := some [("o/A", ⟨true, 1⟩), ("o/C", ⟨true, 3⟩)],
        temp := none,
        manifestStore := some [("manifest", resourcesC4)] } := by decide

/-- **C7** (idempotence): a second fault-free Activate with an unchanged
persisted manifest, an already-reconciled Content Store (every entry's key
has a non-falsy fingerprint in the manifest) and an empty Temporary Store
leaves the Content Store unchanged — the diff deletes nothing and the copy
adds nothing. -/
theorem activate_idempotent (resources : Manifest) (origin : String)
    (s : CacheStorage)
    (hman : assocFind? "manifest" (s.manifestStore.getD []) = some resources)
    (htemp : s.temp.getD [] = [])
    (hrec : ∀ url ∈ (s.content.getD []).map (·.1),
      jsFalsyStr (assocFind? (activateKey origin url) resources) = false) :
    ((activateHandler resources origin s none).content.getD []).map (·.1) =
      (s.content.getD []).map (·.1) := by
  rw [activateHandler_noFault]
  simp only [activatePure, hman, htemp, List.map_nil, copyPure,
    Option.getD_some]
  rw [evictPure_id]
  intro u hu
  unfold evictCond
  simp [hrec u hu]

def storageC7 : CacheStorage :=
  { content := some [("o/A", ⟨true, 1⟩)], temp := some [],
    manifestStore := some [("manifest", [("A", "h1")])] }

theorem activate_idempotent_witness :
    ((activateHandler [("A", "h1")] "o" storageC7 none).content.getD []).map (·.1) =
      (storageC7.content.getD []).map (·.1) :=
  activate_idempotent [("A", "h1")] "o" storageC7 (by decide) (by decide)
    (by decide)

/-- The fetch handler's routing decision (source lines 140–161). -/
inductive FetchDecision
  | passThrough
  | onlineFirstRoute
  | cacheFirstRoute
deriving DecidableEq

/-- Routing of an incoming request: non-GET and non-manifest keys are not
intercepted; the root sentinel key uses the online-first strategy; every
other manifest key uses cache-first-with-lazy-fill. -/
def fetchDecision (resources : Manifest) (origin method url : String) :
    FetchDecision :=
  if method ≠ "GET" then FetchDecision.passThrough
  else
    let key := fetchKey origin url
    if jsFalsyStr (assocFind? key resources) then FetchDecision.passThrough
    else if key = "/" then FetchDecision.onlineFirstRoute
    else FetchDecision.cacheFirstRoute

/-- The cache-first-with-lazy-fill strategy (source lines 162–175): on hit
return the cached response; on miss take the network result (`Except.error`
= rejected fetch, propagated), and store a clone only when `response.ok`. -/
def cacheFirst {ε : Type} (cache : Cache) (url : String)
    (net : Except ε Response) : Cache × Except ε Response :=
  match assocFind? url cache with
  | some r => (cache, Except.ok r)
  | none =>
      match net with
      | Except.ok resp =>
          if resp.ok then (assocPut url resp cache, Except.ok resp)
          else (cache, Except.ok resp)
      | Except.error e => (cache, Except.error e)

/-- The online-first strategy for the root document (source lines 211–229):
a resolved fetch is stored (clone) and returned unconditionally; a rejected
fetch falls back to the cache, and when no cached response exists the
original error is rethrown. -/
def onlineFirst {ε : Type} (cache : Cache) (url : String)
    (net : Except ε Response) : Cache × Except ε Response :=
  match net with
  | Except.ok resp => (assocPut url resp cache, Except.ok resp)
  | Except.error e =>
      match assocFind? url cache with
      | some r => (cache, Except.ok r)
      | none => (cache, Except.error e)

/-- **C5** (fetch-miss lazy fill): for a GET request routed to cache-first
(its computed key is a non-root manifest key) that misses the Content Store,
an ok network response is stored under the request and returned, while a
non-ok response is returned without populating the cache. -/
theorem fetch_miss_lazy_fill {ε : Type} (resources : Manifest)
    (origin url : String) (cache : Cache) (rOk rBad : Response)
    (hroute : fetchDecision resources origin "GET" url =
      FetchDecision.cacheFirstRoute)
    (hmiss : assocFind? url cache = none)
    (hok : rOk.ok = true) (hbad : rBad.ok = false) :
    (assocFind? url (cacheFirst (ε := ε) cache url (Except.ok rOk)).1 =
        some rOk ∧
      (cacheFirst (ε := ε) cache url (Except.ok rOk)).2 = Except.ok rOk) ∧
    ((cacheFirst (ε := ε) cache url (Except.ok rBad)).1 = cache ∧
      (cacheFirst (ε := ε) cache url (Except.ok rBad)).2 = Except.ok rBad) := by
  refine ⟨⟨?_, ?_⟩, ?_, ?_⟩
  · simp [cacheFirst, hmiss, hok, assocFind?_put]
  · simp [cacheFirst, hmiss, hok]
  · simp [cacheFirst, hmiss, hbad]
  · simp [cacheFirst, hmiss, hbad]

theorem fetch_miss_lazy_fill_witness :
    (assocFind? "o/a.js"
        (cacheFirst (ε := Unit) [] "o/a.js" (Except.ok ⟨true, 5⟩)).1 =
        some ⟨true, 5⟩ ∧
      (cacheFirst (ε := Unit) [] "o/a.js" (Except.ok ⟨true, 5⟩)).2 =
        Except.ok ⟨true, 5⟩) ∧
    ((cacheFirst (ε := Unit) [] "o/a.js" (Except.ok ⟨false, 6⟩)).1 = [] ∧
      (cacheFirst (ε := Unit) [] "o/a.js" (Except.ok ⟨false, 6⟩)).2 =
        Except.ok ⟨false, 6⟩) :=
  fetch_miss_lazy_fill [("a.js", "h")] "o" "o/a.js" [] ⟨true, 5⟩ ⟨false, 6⟩
    (by decide) rfl rfl rfl

/-- **C6** (root online-first fallback): when the network fetch fails, a
cached response for the request is returned if present; otherwise the
original network error is propagated. -/
theorem online_first_fallback {ε : Type} (e : ε) (cacheHit cacheMiss : Cache)
    (url : String) (r : Response)
    (hhit : assocFind? url cacheHit = some r)
    (hmiss : assocFind? url cacheMiss = none) :
    onlineFirst cacheHit url (Except.error e) = (cacheHit, Except.ok r) ∧
    onlineFirst cacheMiss url (Except.error e) = (cacheMiss, Except.error e) := by
  unfold onlineFirst
  rw [hhit, hmiss]
  exact ⟨rfl, rfl⟩

theorem online_first_fallback_witness :
    onlineFirst [("o/", ⟨true, 7⟩)] "o/" (Except.error "neterr") =
      ([("o/", ⟨true, 7⟩)], Except.ok ⟨true, 7⟩) ∧
    onlineFirst ([] : Cache) "o/" (Except.error "neterr") =
      (([] : Cache), Except.error "neterr") :=
  online_first_fallback "neterr" [("o/", ⟨true, 7⟩)] [] "o/" ⟨true, 7⟩
    (by decide) rfl

/-- **C10**: every resolved network response in the online-first strategy is
stored in the Content Store regardless of its HTTP status (no `ok` check,
unlike cache-first), the original response is returned, and the stored copy
is what a later network failure falls back to. -/
theorem online_first_caches_any_status {ε : Type} (e : ε) (cache : Cache)
    (url : String) (resp : Response) :
    assocFind? url (onlineFirst (ε := ε) cache url (Except.ok resp)).1 =
      some resp ∧
    (onlineFirst (ε := ε) cache url (Except.ok resp)).2 = Except.ok resp ∧
    (onlineFirst (onlineFirst (ε := ε) cache url (Except.ok resp)).1 url
        (Except.error e)).2 = Except.ok resp := by
  refine ⟨?_, rfl, ?_⟩
  · simp [onlineFirst, assocFind?_put]
  · simp [onlineFirst, assocFind?_put]

/-- Observable steps of the install handler, in program order. -/
inductive InstallEvent
  | signalSkipWaiting
  | openTempStore
  | fetchCoreShell (ok : Bool)
deriving DecidableEq

/-- The install handler (source lines 69–77): synchronously invokes
`self.skipWaiting()` first, then awaits opening the Temporary Store and
`cache.addAll` over the CORE requests (cache-bypassing reload); the install
succeeds iff the bulk fetch succeeds, staging the shell responses in the
Temporary Store; on failure the handler's `waitUntil` promise rejects and no
installed state results. -/
def installHandler (origin : String) (coreResp : String → Response)
    (fetchOk : Bool) (s : CacheStorage) :
    List InstallEvent × Option CacheStorage :=
  ([InstallEvent.signalSkipWaiting, InstallEvent.openTempStore,
    InstallEvent.fetchCoreShell fetchOk],
   if fetchOk then
     some { s with temp := some (CORE.foldl
       (fun c v => assocPut (origin ++ "/" ++ v) (coreResp v) c)
       (s.temp.getD [])) }
   else none)

def sampleCoreResp : String → Response := fun _ => ⟨true, 0⟩

/-- **C8** counterexample: with a failing core-shell fetch the install fails,
yet the skip-waiting signal was already emitted as the very first step — so
the claim that the signal happens only after the fetches succeed is false. -/
theorem install_signal_counterexample :
    (installHandler "o" sampleCoreResp false ⟨none, none, none⟩).1.head? =
      some InstallEvent.signalSkipWaiting ∧
    (installHandler "o" sampleCoreResp false ⟨none, none, none⟩).2 = none :=
  ⟨rfl, rfl⟩

/-- **C8** amended: the install handler emits the skip-waiting signal
unconditionally as its first step, before the core-shell fetches; the
install produces an installed state iff the fetches succeed. -/
theorem install_signal_unconditional (origin : String)
    (coreResp : String → Response) (fetchOk : Bool) (s : CacheStorage) :
    (installHandler origin coreResp fetchOk s).1 =
      [InstallEvent.signalSkipWaiting, InstallEvent.openTempStore,
        InstallEvent.fetchCoreShell fetchOk] ∧
    (installHandler origin coreResp fetchOk s).2.isSome = fetchOk := by
  cases fetchOk <;> simp [installHandler]

/-- `downloadOffline` (source lines 191–208): enumerate the Content Store's
request URLs, mark each logical key as present, then collect every manifest
key not marked and pass that list to the bulk fetch (`addAll`).  The result
is the list of keys bulk-fetched.  `origin` models the worker-global
`origin` binding the code references. -/
def downloadOffline (origin : String) (resources : Manifest)
    (contentCache : Cache) : List String :=
  let currentContent : List (String × Bool) :=
    (contentCache.map (·.1)).foldl
      (fun acc url => assocPut (activateKey origin url) true acc) []
  (resources.map (·.1)).foldl
    (fun acc resourceKey =>
      if jsFalsyBool (assocFind? resourceKey currentContent) then
        acc ++ [resourceKey]
      else acc) []

theorem assocFind?_markFold (origin k : String) (urls : List String)
    (acc : List (String × Bool)) :
    assocFind? k (urls.foldl
        (fun acc url => assocPut (activateKey origin url) true acc) acc) =
      if urls.any (fun url => activateKey origin url = k) then some true
      else assocFind? k acc := by
  induction urls generalizing acc with
  | nil => simp
  | cons u rest ih =>
      rw [List.foldl_cons, ih, List.any_cons]
      by_cases hrest : rest.any (fun url => decide (activateKey origin url = k)) = true
      · rw [if_pos hrest, if_pos (by simp [hrest])]
      · rw [if_neg hrest, assocFind?_put]
        by_cases hu : activateKey origin u = k
        · rw [if_pos hu, if_pos (by simp [hu])]
        · rw [if_neg hu, if_neg (by simp [hu, hrest])]

theorem foldl_select_eq_filter (p : String → Bool) (l acc : List String) :
    l.foldl (fun acc k => if p k then acc ++ [k] else acc) acc =
      acc ++ l.filter p := by
  induction l generalizing acc with
  | nil => simp
  | cons a t ih =>
      rw [List.foldl_cons, ih, List.filter_cons]
      by_cases hp : p a = true
      · rw [if_pos hp, if_pos hp]
        simp
      · rw [if_neg hp, if_neg hp]

/-- **C9**: the on-demand full prefetch computes and bulk-fetches exactly the
manifest keys whose logical key is not currently present in the Content
Store; keys already present are not re-fetched. -/
theorem download_offline_missing_keys (origin : String) (resources : Manifest)
    (contentCache : Cache) (k : String) :
    k ∈ downloadOffline origin resources contentCache ↔
      (k ∈ resources.map (·.1) ∧
        ∀ url ∈ contentCache.map (·.1), activateKey origin url ≠ k) := by
  simp only [downloadOffline]
  rw [foldl_select_eq_filter]
  simp only [List.nil_append, List.mem_filter]
  constructor
  · rintro ⟨hk, hp⟩
    refine ⟨hk, ?_⟩
    intro url hurl hkey
    rw [assocFind?_markFold,
      if_pos (List.any_eq_true.mpr ⟨url, hurl, by simp [hkey]⟩)] at hp
    simp [jsFalsyBool] at hp
  · rintro ⟨hk, hall⟩
    refine ⟨hk, ?_⟩
    rw [assocFind?_markFold, if_neg ?_]
    · rfl
    · intro hany
      rcases List.any_eq_true.mp hany with ⟨url, hurl, hkey⟩
      exact hall url hurl (by simpa using hkey)
